import Mathlib

/-!
Verification development for the type-schema extractor script
(scripts/extract-types.py) of the umo repository.

The script reflects over a loaded Python package and emits a JSON schema:
for each module its public functions, classes and constants, with every
type annotation recursively resolved to a tagged descriptor, plus a list
of missing annotations and a coverage percentage.

The shallow embedding below translates the script into Lean:
  - Python runtime annotation values become the inductive type Annot;
  - the JSON descriptor dictionaries become inductive/structure values
    (TypeDesc, ParamDesc, FunctionDesc, ClassDesc, ModuleDesc, Schema);
  - the reflection inputs (signatures, type hints, class members, module
    symbol directories, import outcomes) become explicit data
    (PyParam, PyFunc, PyClass, PyModule, PackageWorld);
  - Python floats are modelled by exact rationals, and the builtin round
    by round-half-to-even on rationals;
  - exceptions become Except / Option values; a caught exception is an
    ordinary value, an uncaught one is an Except.error result.
-/

namespace UmoExtract

/-- Tagged type descriptor produced by the resolver. Mirrors the JSON
dictionaries built by parse_type_annotation in the script: each
constructor corresponds to one value of the kind discriminator, and the
constructor arguments are the kind-specific fields (value, elementType,
keyType/valueType, elements, innerType, className). -/
inductive TypeDesc where
  | none : TypeDesc
  | any : TypeDesc
  | primitive (value : String) : TypeDesc
  | list (elementType : TypeDesc) : TypeDesc
  | dict (keyType valueType : TypeDesc) : TypeDesc
  | tuple (elements : List TypeDesc) : TypeDesc
  | optional (innerType : TypeDesc) : TypeDesc
  | cls (className : String) : TypeDesc

/-- A Python runtime annotation value, as dispatched on by
parse_type_annotation (script lines 20-95). Constructors cover the
disjoint cases the source code distinguishes:
  - pyNone: the object None used as an annotation;
  - noneType: the class NoneType, i.e. type(None) (also the normal form
    of None inside typing.Union arguments);
  - empty: the inspect.Parameter.empty / inspect.Signature.empty
    sentinel meaning no annotation was given;
  - strRef s: a string annotation (forward reference);
  - strTy, intTy, floatTy, boolTy: the builtin classes str, int, float,
    bool used directly as annotations;
  - listG / dictG / tupleG / unionG args: a parameterized generic whose
    get_origin is list / dict / tuple / typing.Union, with get_args
    giving the listed arguments;
  - classTy name: any other class object (its declared name recorded);
  - special txt: any remaining object (typing special forms etc.), txt
    being its str form. -/
inductive Annot where
  | pyNone : Annot
  | noneType : Annot
  | empty : Annot
  | strRef (s : String) : Annot
  | strTy : Annot
  | intTy : Annot
  | floatTy : Annot
  | boolTy : Annot
  | listG (args : List Annot) : Annot
  | dictG (args : List Annot) : Annot
  | tupleG (args : List Annot) : Annot
  | unionG (args : List Annot) : Annot
  | classTy (name : String) : Annot
  | special (txt : String) : Annot

/-- Identity test against the class NoneType, embedding the Python
expressions a is type(None) and type(None) in args. -/
def Annot.isNoneType : Annot → Bool
  | Annot.noneType => true
  | _ => false

/-- Auxiliary size bound used for the termination of the resolver. -/
theorem sizeOf_filter_le {α : Type} [SizeOf α] (p : α → Bool) (l : List α) :
    sizeOf (List.filter p l) ≤ sizeOf l := by
  induction l with
  | nil => simp
  | cons a t ih =>
    rw [List.filter_cons]
    by_cases h : p a = true
    · simp only [h, if_true, List.cons.sizeOf_spec]
      omega
    · have hf : p a = false := by simpa using h
      simp only [hf, Bool.false_eq_true, if_false, List.cons.sizeOf_spec]
      omega

mutual

/-- Embedding of parse_type_annotation (script lines 20-95). Case by
case against the source:
  - annotation is None or type(None): kind none (lines 22-23, and the
    origin-is-NoneType check at lines 69-70 is subsumed);
  - the empty sentinel: kind any (lines 25-26);
  - a string annotation: looked up in the fixed table of lines 31-38,
    defaulting to any (line 39);
  - the builtin classes str/int/float/bool: primitive (lines 42-49);
  - origin list: list of the first argument, any when no arguments
    (lines 55-57); origin dict: dict of the first two arguments, any for
    each missing one (lines 59-62); origin tuple: tuple of all arguments
    (lines 64-66);
  - origin Union (lines 73-83): the arguments that are not NoneType are
    kept; when exactly one remains and NoneType is among the arguments
    the result is optional of that one, otherwise any;
  - any other class: kind class with its name (lines 86-87);
  - everything else: any (lines 89-95; both the branch whose str form
    mentions Any and the final fallback produce any). -/
def parse_type_annot : Annot → TypeDesc
  | Annot.pyNone => TypeDesc.none
  | Annot.noneType => TypeDesc.none
  | Annot.empty => TypeDesc.any
  | Annot.strRef s =>
      if s = "str" then TypeDesc.primitive "str"
      else if s = "int" then TypeDesc.primitive "int"
      else if s = "float" then TypeDesc.primitive "float"
      else if s = "bool" then TypeDesc.primitive "bool"
      else if s = "None" then TypeDesc.none
      else if s = "Any" then TypeDesc.any
      else TypeDesc.any
  | Annot.strTy => TypeDesc.primitive "str"
  | Annot.intTy => TypeDesc.primitive "int"
  | Annot.floatTy => TypeDesc.primitive "float"
  | Annot.boolTy => TypeDesc.primitive "bool"
  | Annot.listG [] => TypeDesc.list TypeDesc.any
  | Annot.listG (a :: _) => TypeDesc.list (parse_type_annot a)
  | Annot.dictG [] => TypeDesc.dict TypeDesc.any TypeDesc.any
  | Annot.dictG [k] => TypeDesc.dict (parse_type_annot k) TypeDesc.any
  | Annot.dictG (k :: v :: _) =>
      TypeDesc.dict (parse_type_annot k) (parse_type_annot v)
  | Annot.tupleG args => TypeDesc.tuple (parse_annot_list args)
  | Annot.unionG args =>
      if args.any Annot.isNoneType then
        match parse_annot_list (args.filter (fun a => ! Annot.isNoneType a)) with
        | [d] => TypeDesc.optional d
        | _ => TypeDesc.any
      else TypeDesc.any
  | Annot.classTy n => TypeDesc.cls n
  | Annot.special _ => TypeDesc.any
termination_by a => sizeOf a
decreasing_by
  all_goals simp_wf
  all_goals try omega
  all_goals have := sizeOf_filter_le (fun a => ! Annot.isNoneType a) args
  all_goals omega

/-- Pointwise resolution of a list of annotation arguments, used for the
tuple generic (list comprehension of script line 65) and, in the union
case above, for the filtered union arguments. The source resolves only
the single surviving union argument; resolving the whole filtered list
pointwise and then selecting gives the same value because resolution is
a pure total function. -/
def parse_annot_list : List Annot → List TypeDesc
  | [] => []
  | a :: as_ => parse_type_annot a :: parse_annot_list as_
termination_by l => sizeOf l
decreasing_by
  all_goals simp_wf
  all_goals omega

end

theorem parse_annot_list_eq_map (l : List Annot) :
    parse_annot_list l = l.map parse_type_annot := by
  induction l with
  | nil => simp [parse_annot_list]
  | cons a as_ ih => simp [parse_annot_list, ih]

/-! ## Symbol Extractor: functions -/

/-- A parameter descriptor in the output schema (script lines 120-125):
name, resolved type, optional flag (has a default), and the repr of the
default value when one exists. -/
structure ParamDesc where
  name : String
  type : TypeDesc
  optional : Bool
  default : Option String

/-- A function descriptor in the output schema (script lines 131-138). -/
structure FunctionDesc where
  name : String
  params : List ParamDesc
  returnType : TypeDesc
  docstring : Option String
  isAsync : Bool
  isMethod : Bool

/-- One parameter of an inspect.Signature: its name, its raw annotation
( Annot.empty when the parameter carries none), and the repr of its
default value (Option.none when the default is the empty sentinel). -/
structure PyParam where
  name : String
  annot : Annot
  defaultRepr : Option String

/-- An inspect.Signature: the ordered parameters and the raw return
annotation ( Annot.empty for the empty sentinel). -/
structure PySignature where
  params : List PyParam
  returnAnnot : Annot

/-- A Python callable as seen by the extractor:
  - sig: some signature, or Option.none when inspect.signature raises
    (script lines 100-103);
  - hints: the get_type_hints dictionary as an association list; a
    failing hints lookup yields the empty dictionary (lines 106-109),
    which this model represents as the empty list;
  - docstring: inspect.getdoc; isAsync: iscoroutinefunction. -/
structure PyFunc where
  sig : Option PySignature
  hints : List (String × Annot)
  docstring : Option String
  isAsync : Bool

/-- Dictionary lookup with default, embedding hints.get(key, fallback)
(script lines 117 and 128). -/
def hintsGet (hints : List (String × Annot)) (k : String) (fallback : Annot) : Annot :=
  match hints.find? (fun q => q.1 == k) with
  | some q => q.2
  | Option.none => fallback

/-- Embedding of extract_function_info (script lines 98-138):
returns Option.none when the signature cannot be introspected; otherwise
builds the descriptor. Parameters named self are skipped (lines
113-114); each kept parameter takes its type from the hints entry for
its name, falling back to the raw annotation (line 117); the optional
flag and default repr come from the default (lines 123-124); the return
type comes from the hints entry for the key return, falling back to the
raw return annotation (line 128); isMethod is always False here (line
137). -/
def extract_function_info (func : PyFunc) (name : String) : Option FunctionDesc :=
  match func.sig with
  | Option.none => Option.none
  | some sig =>
    let params := (sig.params.filter (fun p => !(p.name == "self"))).map (fun p =>
      ({ name := p.name,
         type := parse_type_annot (hintsGet func.hints p.name p.annot),
         optional := p.defaultRepr.isSome,
         default := p.defaultRepr } : ParamDesc))
    some { name := name,
           params := params,
           returnType := parse_type_annot (hintsGet func.hints "return" sig.returnAnnot),
           docstring := func.docstring,
           isAsync := func.isAsync,
           isMethod := false }

/-- The underscore character. -/
def glyph_underscore : Char := Char.ofNat 95

/-- The Python test name.startswith(a single low line character), used
at script lines 156, 165, 205, 318: true exactly when the name begins
with an underscore (code point 95). Defined by direct character
inspection so that it evaluates by reduction. -/
def startsWithUnderscore (s : String) : Bool :=
  match s.data with
  | [] => false
  | c :: _ => c == glyph_underscore

/-! ## Symbol Extractor: classes -/

/-- A property descriptor in the output schema (script lines 178-183). -/
structure PropertyDesc where
  name : String
  type : TypeDesc
  readonly : Bool
  docstring : Option String

/-- A class descriptor in the output schema (script lines 185-192). -/
structure ClassDesc where
  name : String
  constructor : Option FunctionDesc
  methods : List FunctionDesc
  properties : List PropertyDesc
  docstring : Option String
  bases : List String

/-- A property attribute of a class as the extractor observes it:
fgetReturnHint is some annotation exactly when a getter exists, its
get_type_hints call succeeds and the hints contain the key return
(script lines 171-177; every failure path leaves the type as any);
fsetIsNone records whether no setter is attached (line 181). -/
structure PyProperty where
  name : String
  fgetReturnHint : Option Annot
  fsetIsNone : Bool
  doc : Option String

/-- A Python class as the extractor observes it:
  - initFunc: the __init__ attribute when present (hasattr from script
    line 148; in CPython it always is, but the guard is modelled);
  - functionMembers: the result of inspect.getmembers with the
    isfunction predicate (line 155), name/value pairs in getmembers
    order; when __init__ is a plain function the pair with name __init__
    and value initFunc is among them;
  - propertyMembers: the dir entries that are property objects, in dir
    order (lines 164-168);
  - baseNames: the declared names of the entries of __bases__. -/
structure PyClass where
  name : String
  initFunc : Option PyFunc
  functionMembers : List (String × PyFunc)
  propertyMembers : List PyProperty
  doc : Option String
  baseNames : List String

/-- Embedding of extract_class_info (script lines 141-192):
the constructor is the descriptor of __init__ with isMethod set to True
when the attribute exists and is introspectable (lines 148-152); the
methods are the function members whose name does not start with an
underscore, except that __init__ itself is kept (lines 155-161), again
with isMethod True; the properties are the public property members with
the getter-derived type, any as fallback (lines 164-183); the bases are
the base names other than object (line 191). -/
def extract_class_info (cls : PyClass) : ClassDesc :=
  let constructor :=
    match cls.initFunc with
    | Option.none => Option.none
    | some f =>
      match extract_function_info f "__init__" with
      | Option.none => Option.none
      | some d => some { d with isMethod := true }
  let methods := cls.functionMembers.filterMap (fun nf =>
    match nf with
    | (nm, fn) =>
      if startsWithUnderscore nm && !(nm == "__init__") then Option.none
      else
        match extract_function_info fn nm with
        | Option.none => Option.none
        | some d => some { d with isMethod := true })
  let properties := cls.propertyMembers.filterMap (fun p =>
    if startsWithUnderscore p.name then Option.none
    else some ({ name := p.name,
                 type := match p.fgetReturnHint with
                         | some h => parse_type_annot h
                         | Option.none => TypeDesc.any,
                 readonly := p.fsetIsNone,
                 docstring := p.doc } : PropertyDesc))
  { name := cls.name,
    constructor := constructor,
    methods := methods,
    properties := properties,
    docstring := cls.doc,
    bases := cls.baseNames.filter (fun b => !(b == "object")) }

/-! ## Module Walker -/

/-- A constant descriptor in the output schema (script lines 230-234). -/
structure ConstantDesc where
  name : String
  type : TypeDesc
  value : Option String

/-- A module descriptor in the output schema (script lines 236-243). -/
structure ModuleDesc where
  name : String
  path : String
  functions : List FunctionDesc
  classes : List ClassDesc
  constants : List ConstantDesc
  docstring : Option String

/-- A non-function, non-class runtime value bound at module level:
its repr string, whether it is a dict or list instance, and its runtime
class as an annotation (type(obj), fed to the resolver at script
line 229). -/
structure PyValue where
  reprStr : String
  isDictOrList : Bool
  typeAnnot : Annot

/-- Classification of a module-level object, mirroring the elif chain of
script lines 220-234: a plain function (inspect.isfunction), a class
(inspect.isclass), or any other value together with whether it is
callable (a callable non-function non-class is silently ignored by the
chain). -/
inductive PyPayload where
  | func (f : PyFunc) : PyPayload
  | cls (c : PyClass) : PyPayload
  | value (isCallable : Bool) (v : PyValue) : PyPayload

/-- A module-level object: its __module__ attribute when it has one
(Option.none models a missing attribute, script line 215) and its
classification. -/
structure PyObj where
  declaredModule : Option String
  payload : PyPayload

/-- A module as the extractor observes it:
  - name: the runtime __name__ (compared against __module__ at script
    line 215);
  - file: the __file__ attribute when present (line 238);
  - all: the __all__ list when declared (line 202);
  - entries: the dir(module) names in order, each with the result of
    getattr(module, name, None), where Option.none is the binding of the
    value None (skipped at lines 208-210);
  - doc: inspect.getdoc. -/
structure PyModule where
  name : String
  file : Option String
  all : Option (List String)
  entries : List (String × Option PyObj)
  doc : Option String

/-- The per-name inclusion filter of extract_module_info (script lines
204-218): underscore-led names are skipped (lines 205-206), None
bindings are skipped (lines 208-210), and a surviving object is kept
exactly when it is defined here (no __module__ attribute, or __module__
equal to the runtime module name, line 215) or its name is listed in
__all__ (line 216). -/
def entry_passes (m : PyModule) : String × Option PyObj → Option (String × PyObj)
  | (name, bound) =>
    if startsWithUnderscore name then Option.none
    else
      match bound with
      | Option.none => Option.none
      | some obj =>
        if ¬ (obj.declaredModule = Option.none ∨ obj.declaredModule = some m.name) ∧
           ¬ (name ∈ m.all.getD []) then Option.none
        else some (name, obj)

/-- The function descriptors contributed by the passing entries (script
lines 220-223); an uninspectable function is dropped. -/
def funcs_of (included : List (String × PyObj)) : List FunctionDesc :=
  included.filterMap (fun e =>
    match e with
    | (name, obj) =>
      match obj.payload with
      | PyPayload.func f => extract_function_info f name
      | _ => Option.none)

/-- The class descriptors contributed by the passing entries (script
lines 224-226). -/
def classes_of (included : List (String × PyObj)) : List ClassDesc :=
  included.filterMap (fun e =>
    match e with
    | (_, obj) =>
      match obj.payload with
      | PyPayload.cls c => some (extract_class_info c)
      | _ => Option.none)

/-- The constant descriptors contributed by the passing entries (script
lines 227-234): non-callable values only; the value repr is kept when
the value is not a dict or list instance or its repr is shorter than 100
characters (line 233). -/
def consts_of (included : List (String × PyObj)) : List ConstantDesc :=
  included.filterMap (fun e =>
    match e with
    | (name, obj) =>
      match obj.payload with
      | PyPayload.value false v =>
        some { name := name,
               type := parse_type_annot v.typeAnnot,
               value := if ¬ v.isDictOrList ∨ v.reprStr.length < 100
                        then some v.reprStr else Option.none }
      | _ => Option.none)

/-- Embedding of extract_module_info (script lines 195-243). The single
loop of the source appends each passing entry to exactly one of three
independent lists according to the elif chain, so the three lists equal
one filterMap per category over the passing entries, in entry order. -/
def extract_module_info (m : PyModule) (module_name : String) : ModuleDesc :=
  let included := m.entries.filterMap (entry_passes m)
  { name := module_name,
    path := m.file.getD "",
    functions := funcs_of included,
    classes := classes_of included,
    constants := consts_of included,
    docstring := m.doc }

/-! ## Missing annotation accounting and coverage -/

/-- The test kind equal to the string any applied to a descriptor,
embedding the comparisons of script lines 255, 258, 265 and 268 (the
kind discriminator of a descriptor dictionary is in bijection with the
constructor of TypeDesc). -/
def isAnyKind : TypeDesc → Bool
  | TypeDesc.any => true
  | _ => false

/-- The missing entries of one function or method with qualified name
qual: first the return type when its kind is any, suffixed with the
return-type marker, then each parameter whose type kind is any (script
lines 253-259 and 263-269). -/
def missingOfFunc (qual : String) (f : FunctionDesc) : List String :=
  (if isAnyKind f.returnType then [qual ++ " (return type)"] else [])
  ++ f.params.filterMap (fun p =>
       if isAnyKind p.type then some (qual ++ "." ++ p.name) else Option.none)

/-- Embedding of count_missing_annotations (script lines 246-271),
taking the modules list of the schema under construction: module-level
functions first, then the methods of each class, in order. -/
def count_missing_annotations (modules : List ModuleDesc) : List String :=
  modules.flatMap (fun m =>
    m.functions.flatMap (fun f => missingOfFunc (m.name ++ "." ++ f.name) f)
    ++ m.classes.flatMap (fun c =>
         c.methods.flatMap (fun mth =>
           missingOfFunc (m.name ++ "." ++ c.name ++ "." ++ mth.name) mth)))

/-- One annotatable slot count for a function: one for the return plus
one per parameter (script lines 352 and 355). -/
def slotCount (f : FunctionDesc) : Nat := 1 + f.params.length

/-- Embedding of the total_items accumulation (script lines 349-355):
module functions and class methods across all modules. -/
def totalItems (modules : List ModuleDesc) : Nat :=
  (modules.map (fun m =>
    (m.functions.map slotCount).sum +
    (m.classes.map (fun c => (c.methods.map slotCount).sum)).sum)).sum

/-- The Python builtin round at ndigits equal to None, modelled exactly
on rationals: round half to even. -/
def roundHalfEven (x : ℚ) : ℤ :=
  if x - ⌊x⌋ < 1/2 then ⌊x⌋
  else if 1/2 < x - ⌊x⌋ then ⌊x⌋ + 1
  else if ⌊x⌋ % 2 = 0 then ⌊x⌋ else ⌊x⌋ + 1

/-- The Python builtin round(x, 2) (script line 358), modelled exactly
on rationals. -/
def round2 (x : ℚ) : ℚ := ((roundHalfEven (x * 100) : ℚ)) / 100

/-! ## Package Assembler -/

/-- The process standard output and standard error stream targets: a
value identifying the object sys.stdout and sys.stderr point at. -/
structure Streams where
  stdout : Nat
  stderr : Nat

/-- The identity of the fresh io.StringIO buffer both streams are
pointed at during a submodule import (script line 326). -/
def capturedStreamId : Nat := 0

/-- Outcome of importing one submodule (script line 328): success with
the resulting module, an exception raised during import, or a process
exit request (sys.exit); the latter two are both caught by the handler
of script line 334. -/
inductive SubImportOutcome where
  | ok (m : PyModule) : SubImportOutcome
  | exc : SubImportOutcome
  | exit : SubImportOutcome

/-- One candidate submodule file found by the glob (script line 317):
its file name and stem, what importing it does to the process streams
(its top level may print or even reassign them), and the import
outcome. -/
structure SubFile where
  name : String
  stem : String
  streamEffect : Streams → Streams
  importOutcome : SubImportOutcome

/-- One directory of the package __path__ (script lines 314-316). -/
structure PathDir where
  pathExists : Bool
  files : List SubFile

/-- Outcome of importing the main package (script line 288): success,
an ImportError (caught at line 289), or any other exception, which the
source does not catch and therefore propagates to the caller. -/
inductive MainImportOutcome where
  | ok (m : PyModule) : MainImportOutcome
  | importError (msg : String) : MainImportOutcome
  | otherExc (msg : String) : MainImportOutcome

/-- The reflection environment one invocation of extract_package_types
runs against: the outcome of the main import, the __version__ attribute
of the main module when present (script line 293), the metadata
version lookup of importlib ( Option.none when it raises, lines
296-303), and the package __path__ when the import target is a package
(lines 312-316). -/
structure PackageWorld where
  mainImport : MainImportOutcome
  versionAttr : Option String
  metadataVersion : String → Option String
  packagePath : Option (List PathDir)

/-- The process-wide mutable state the script touches: sys.path and the
sys.stdout / sys.stderr targets. -/
structure ProcState where
  sysPath : List String
  streams : Streams

/-- The version fallback chain (script lines 293-303): the __version__
attribute, else metadata lookup under the pip name falling back to
the import name, else metadata lookup under the import name, else the
literal unknown. The Python expression pip_name or package_name is
modelled by getD on the optional pip name. -/
def resolveVersion (w : PackageWorld) (package_name : String)
    (pip_name : Option String) : String :=
  match w.versionAttr with
  | some v => v
  | Option.none =>
    match w.metadataVersion (pip_name.getD package_name) with
    | some v => v
    | Option.none =>
      match w.metadataVersion package_name with
      | some v => v
      | Option.none => "unknown"

/-- The candidate submodule files: every file of every existing
directory of the package __path__, in order, and nothing when no
__path__ is present (script lines 312-317; an empty __path__ list is
falsy and the some-empty and none cases behave alike). -/
def candidate_files (w : PackageWorld) : List SubFile :=
  (match w.packagePath with
   | Option.none => []
   | some dirs => dirs).flatMap (fun d => if d.pathExists then d.files else [])

/-- The guarded import of one submodule (script lines 322-330): the
previous stream targets are saved, both streams are pointed at a fresh
buffer, the import runs (with whatever effect its top level has on the
streams), and the finally clause restores the saved targets on every
exit path before the outcome (success, exception or exit request) is
seen by the caller. -/
def attempt_submodule_import (f : SubFile) (s : Streams) :
    SubImportOutcome × Streams :=
  let old_stdout := s.stdout
  let old_stderr := s.stderr
  let redirected : Streams := { stdout := capturedStreamId, stderr := capturedStreamId }
  let _duringImport := f.streamEffect redirected
  (f.importOutcome, { stdout := old_stdout, stderr := old_stderr })

/-- One iteration of the submodule loop (script lines 317-336):
underscore-led file names are skipped (318-319); the import is attempted
under the dotted submodule name (320-330); on success the submodule is
walked and appended only when it contributed at least one function or
class (331-333); an exception or exit request is absorbed and the loop
proceeds (334-336). -/
def step_submodule (package_name : String)
    (acc : List ModuleDesc × ProcState) (f : SubFile) :
    List ModuleDesc × ProcState :=
  let mods := acc.1
  let st := acc.2
  if startsWithUnderscore f.name then (mods, st)
  else
    let att := attempt_submodule_import f st.streams
    let st2 : ProcState := { st with streams := att.2 }
    match att.1 with
    | SubImportOutcome.ok sm =>
        let sub_info := extract_module_info sm (package_name ++ "." ++ f.stem)
        if sub_info.functions.isEmpty && sub_info.classes.isEmpty
        then (mods, st2) else (mods ++ [sub_info], st2)
    | SubImportOutcome.exc => (mods, st2)
    | SubImportOutcome.exit => (mods, st2)

/-- The package schema (script lines 338-358): the JSON object returned
on success. -/
structure Schema where
  package : String
  version : String
  modules : List ModuleDesc
  extractedAt : String
  missingAnnotations : List String
  typeAnnotationCoverage : ℚ

/-- The value extract_package_types hands back without raising: either
the error dictionary, which carries the error string and no other field
(script line 290), or the full schema. -/
inductive ExtractResult where
  | errorDict (error : String) : ExtractResult
  | schema (s : Schema) : ExtractResult

/-- The sys.path insertion of script lines 283-284: the search path is
prepended when not already present. -/
def insert_sys_path (site_packages_path : String) (st : ProcState) : ProcState :=
  if site_packages_path ∈ st.sysPath then st
  else { st with sysPath := site_packages_path :: st.sysPath }

/-- Embedding of extract_package_types (script lines 274-360). In
order: the search path is inserted into sys.path when absent (283-284);
the main import is attempted, an ImportError becoming the error
dictionary (287-290) while any other exception propagates uncaught
(modelled as Except.error); the version chain runs (293-303); the main
module is walked and heads the module list (307-309); each candidate
submodule file is processed by step_submodule (311-336); the missing
annotation list, total item count and rounded coverage are computed
(346-358). The nowIso argument stands for the UTC timestamp the script
reads from the clock (line 342). -/
def extract_package_types (w : PackageWorld) (package_name : String)
    (site_packages_path : String) (pip_name : Option String)
    (nowIso : String) (st0 : ProcState) :
    Except String ExtractResult × ProcState :=
  let st1 := insert_sys_path site_packages_path st0
  match w.mainImport with
  | MainImportOutcome.otherExc msg => (Except.error msg, st1)
  | MainImportOutcome.importError msg =>
      (Except.ok (ExtractResult.errorDict
        ("Failed to import " ++ package_name ++ ": " ++ msg)), st1)
  | MainImportOutcome.ok main_module =>
      let version := resolveVersion w package_name pip_name
      let main_info := extract_module_info main_module package_name
      let res := (candidate_files w).foldl (step_submodule package_name) ([], st1)
      let modules := main_info :: res.1
      let missing := count_missing_annotations modules
      let total_items := totalItems modules
      let coverage : ℚ :=
        if total_items > 0
        then ((total_items : ℚ) - (missing.length : ℚ)) / (total_items : ℚ) * 100
        else 100
      (Except.ok (ExtractResult.schema
        { package := package_name,
          version := version,
          modules := modules,
          extractedAt := nowIso ++ "Z",
          missingAnnotations := missing,
          typeAnnotationCoverage := round2 coverage }), res.2)

/-! ## Characterization lemmas for the assembler -/

/-- The module descriptor one candidate file contributes to the schema,
if any: nothing for an underscore-led file name, a failed import, or a
submodule with neither functions nor classes. -/
def submodule_contrib (package_name : String) (f : SubFile) : Option ModuleDesc :=
  if startsWithUnderscore f.name then Option.none
  else
    match f.importOutcome with
    | SubImportOutcome.ok sm =>
      let si := extract_module_info sm (package_name ++ "." ++ f.stem)
      if si.functions.isEmpty && si.classes.isEmpty then Option.none else some si
    | SubImportOutcome.exc => Option.none
    | SubImportOutcome.exit => Option.none

theorem attempt_submodule_import_streams (f : SubFile) (s : Streams) :
    attempt_submodule_import f s = (f.importOutcome, s) := by
  unfold attempt_submodule_import
  rfl

theorem step_submodule_eq (package_name : String) (mods : List ModuleDesc)
    (st : ProcState) (f : SubFile) :
    step_submodule package_name (mods, st) f =
      (mods ++ (submodule_contrib package_name f).toList, st) := by
  simp only [step_submodule, submodule_contrib, attempt_submodule_import_streams]
  cases hn : startsWithUnderscore f.name with
  | true => simp
  | false =>
    cases f.importOutcome with
    | ok sm =>
      simp only [Bool.false_eq_true, if_false]
      cases he : ((extract_module_info sm (package_name ++ "." ++ f.stem)).functions.isEmpty &&
          (extract_module_info sm (package_name ++ "." ++ f.stem)).classes.isEmpty) <;>
        simp [he]
    | exc => simp
    | exit => simp

theorem foldl_step_submodule (package_name : String) (files : List SubFile)
    (mods : List ModuleDesc) (st : ProcState) :
    files.foldl (step_submodule package_name) (mods, st) =
      (mods ++ files.filterMap (submodule_contrib package_name), st) := by
  induction files generalizing mods with
  | nil => simp
  | cons f fs ih =>
    rw [List.foldl_cons, step_submodule_eq, ih, List.filterMap_cons]
    cases submodule_contrib package_name f <;> simp

/-- The schema extract_package_types builds when the main import
succeeds with module mm. -/
def schema_of (w : PackageWorld) (package_name : String)
    (pip_name : Option String) (nowIso : String) (mm : PyModule) : Schema :=
  let main_info := extract_module_info mm package_name
  let modules := main_info ::
    (candidate_files w).filterMap (submodule_contrib package_name)
  let missing := count_missing_annotations modules
  let total_items := totalItems modules
  let coverage : ℚ :=
    if total_items > 0
    then ((total_items : ℚ) - (missing.length : ℚ)) / (total_items : ℚ) * 100
    else 100
  { package := package_name,
    version := resolveVersion w package_name pip_name,
    modules := modules,
    extractedAt := nowIso ++ "Z",
    missingAnnotations := missing,
    typeAnnotationCoverage := round2 coverage }

theorem extract_package_types_ok (w : PackageWorld) (package_name : String)
    (site_packages_path : String) (pip_name : Option String)
    (nowIso : String) (st0 : ProcState) (mm : PyModule)
    (h : w.mainImport = MainImportOutcome.ok mm) :
    extract_package_types w package_name site_packages_path pip_name nowIso st0 =
      (Except.ok (ExtractResult.schema
        (schema_of w package_name pip_name nowIso mm)),
       insert_sys_path site_packages_path st0) := by
  unfold extract_package_types schema_of
  rw [h]
  simp only [foldl_step_submodule, List.nil_append]

/-! ## Arithmetic lemmas about the rounding model -/

theorem roundHalfEven_le (z : ℤ) (x : ℚ) (h : x < z + 1/2) :
    roundHalfEven x ≤ z := by
  have hfl : ((⌊x⌋ : ℤ) : ℚ) ≤ x := Int.floor_le x
  unfold roundHalfEven
  split_ifs with h1 h2 h3
  · by_contra hc
    push_neg at hc
    have : ((z : ℤ) : ℚ) + 1 ≤ ((⌊x⌋ : ℤ) : ℚ) := by
      exact_mod_cast Int.add_one_le_iff.mpr hc
    linarith
  · by_contra hc
    push_neg at hc
    have : ((z : ℤ) : ℚ) ≤ ((⌊x⌋ : ℤ) : ℚ) := by
      exact_mod_cast Int.lt_add_one_iff.mp hc
    linarith
  · have hx : x - (⌊x⌋ : ℚ) = 1/2 := le_antisymm (not_lt.mp h2) (not_lt.mp h1)
    by_contra hc
    push_neg at hc
    have : ((z : ℤ) : ℚ) + 1 ≤ ((⌊x⌋ : ℤ) : ℚ) := by
      exact_mod_cast Int.add_one_le_iff.mpr hc
    linarith
  · have hx : x - (⌊x⌋ : ℚ) = 1/2 := le_antisymm (not_lt.mp h2) (not_lt.mp h1)
    by_contra hc
    push_neg at hc
    have : ((z : ℤ) : ℚ) ≤ ((⌊x⌋ : ℤ) : ℚ) := by
      exact_mod_cast Int.lt_add_one_iff.mp hc
    linarith

theorem round2_le_100 (x : ℚ) (h : x ≤ 100) : round2 x ≤ 100 := by
  have hr : roundHalfEven (x * 100) ≤ 10000 :=
    roundHalfEven_le 10000 (x * 100) (by push_cast; linarith)
  have : ((roundHalfEven (x * 100) : ℤ) : ℚ) ≤ 10000 := by exact_mod_cast hr
  unfold round2
  linarith

theorem round2_lt_100 (x : ℚ) (h : x < 100 - 1/200) : round2 x < 100 := by
  have hr : roundHalfEven (x * 100) ≤ 9999 :=
    roundHalfEven_le 9999 (x * 100) (by push_cast; linarith)
  have : ((roundHalfEven (x * 100) : ℤ) : ℚ) ≤ 9999 := by exact_mod_cast hr
  unfold round2
  linarith

theorem round2_100 : round2 (100 : ℚ) = 100 := by
  have hfl : ⌊(100 * 100 : ℚ)⌋ = 10000 := by
    rw [Int.floor_eq_iff]
    constructor <;> norm_num
  unfold round2 roundHalfEven
  rw [hfl]
  rw [if_pos (by push_cast; norm_num)]
  norm_num

/-! ## Structural lemma: no missing entries without annotatable slots -/

theorem count_missing_eq_nil_of_totalItems_eq_zero (modules : List ModuleDesc)
    (h : totalItems modules = 0) : count_missing_annotations modules = [] := by
  rw [count_missing_annotations, List.flatMap_eq_nil_iff]
  intro m hm
  unfold totalItems at h
  rw [List.sum_eq_zero_iff] at h
  have hmod := h _ (List.mem_map_of_mem _ hm)
  have hfun : (m.functions.map slotCount).sum = 0 := by omega
  have hcls : (m.classes.map (fun c => (c.methods.map slotCount).sum)).sum = 0 := by
    omega
  rw [List.sum_eq_zero_iff] at hfun hcls
  have hfnil : m.functions = [] := by
    cases hf : m.functions with
    | nil => rfl
    | cons f fs =>
      have := hfun (slotCount f) (by rw [hf]; exact List.mem_map_of_mem _ (List.mem_cons_self f fs))
      unfold slotCount at this
      omega
  rw [hfnil]
  simp only [List.flatMap_nil, List.nil_append]
  rw [List.flatMap_eq_nil_iff]
  intro c hc
  have hcm : (c.methods.map slotCount).sum = 0 :=
    hcls _ (List.mem_map_of_mem _ hc)
  rw [List.sum_eq_zero_iff] at hcm
  have hmnil : c.methods = [] := by
    cases hm2 : c.methods with
    | nil => rfl
    | cons f fs =>
      have := hcm (slotCount f) (by rw [hm2]; exact List.mem_map_of_mem _ (List.mem_cons_self f fs))
      unfold slotCount at this
      omega
  rw [hmnil]
  rfl

/-! ## Small helper lemmas -/

theorem insert_sys_path_streams (sp : String) (st : ProcState) :
    (insert_sys_path sp st).streams = st.streams := by
  unfold insert_sys_path
  split_ifs <;> rfl

theorem string_append_left_cancel (a b c : String) (h : a ++ b = a ++ c) :
    b = c := by
  have hd := congrArg String.data h
  simp only [String.data_append] at hd
  exact String.ext (List.append_cancel_left hd)

theorem string_ne_append_dot (a b : String) : a ≠ a ++ "." ++ b := by
  intro h
  have hl := congrArg String.length h
  simp only [String.length_append] at hl
  have : String.length "." = 1 := rfl
  omega

theorem extract_module_info_name (m : PyModule) (mn : String) :
    (extract_module_info m mn).name = mn := rfl

theorem submodule_contrib_eq_some (package_name : String) (f : SubFile)
    (md : ModuleDesc) (h : submodule_contrib package_name f = some md) :
    ∃ sm, f.importOutcome = SubImportOutcome.ok sm ∧
      md = extract_module_info sm (package_name ++ "." ++ f.stem) := by
  unfold submodule_contrib at h
  by_cases hn : startsWithUnderscore f.name = true
  · rw [if_pos hn] at h
    exact absurd h (by simp)
  · rw [if_neg hn] at h
    cases ho : f.importOutcome with
    | ok sm =>
      rw [ho] at h
      refine ⟨sm, rfl, ?_⟩
      by_cases he : ((extract_module_info sm (package_name ++ "." ++ f.stem)).functions.isEmpty &&
          (extract_module_info sm (package_name ++ "." ++ f.stem)).classes.isEmpty) = true
      · simp only [he, if_true] at h
        exact absurd h (by simp)
      · simp only [he, if_false] at h
        exact (Option.some.inj h).symm
    | exc => rw [ho] at h; exact absurd h (by simp)
    | exit => rw [ho] at h; exact absurd h (by simp)

/-! ## Claim C8 -/

/-- C8 (confirmed): during every per-submodule import attempt the
process-wide standard output and error streams are redirected (inside
attempt_submodule_import both are pointed at the capture buffer before
the import effect runs) and are restored to their prior values on every
exit path, whatever the outcome (success, exception or exit request) and
whatever the imported module did to the streams; consequently a whole
extract_package_types invocation leaves the stream state exactly as it
found it. -/
theorem C8_streams_restored :
    (∀ (f : SubFile) (s : Streams),
        attempt_submodule_import f s = (f.importOutcome, s)) ∧
    (∀ (w : PackageWorld) (package_name site_packages_path : String)
        (pip_name : Option String) (nowIso : String) (st0 : ProcState),
        ((extract_package_types w package_name site_packages_path pip_name
            nowIso st0).2).streams = st0.streams) := by
  constructor
  · exact attempt_submodule_import_streams
  · intro w package_name site_packages_path pip_name nowIso st0
    unfold extract_package_types
    cases hw : w.mainImport with
    | ok mm =>
      simp only [foldl_step_submodule]
      exact insert_sys_path_streams _ _
    | importError msg => exact insert_sys_path_streams _ _
    | otherExc msg => exact insert_sys_path_streams _ _

/-! ## Claim C2 -/

/-- A world whose main import raises an exception that is not an
ImportError (for example a RuntimeError raised by the package top-level
code while it is being imported). -/
def raisingWorld : PackageWorld :=
  { mainImport := MainImportOutcome.otherExc "boom",
    versionAttr := Option.none,
    metadataVersion := fun _ => Option.none,
    packagePath := Option.none }

/-- C2 counterexample: with a top-level import failing with an exception
other than ImportError, extract_package_types does not return any result
value at all; the exception propagates to the caller (the source only
catches ImportError at lines 287-290), refuting the claim that every
failing top-level import yields the structured error value with no
exception raised. -/
theorem C2_counterexample :
    (extract_package_types raisingWorld "pkg" "sp" Option.none "t"
        { sysPath := [], streams := { stdout := 1, stderr := 2 } }).1
      = Except.error "boom"
    ∧ ∀ r : ExtractResult,
        (extract_package_types raisingWorld "pkg" "sp" Option.none "t"
            { sysPath := [], streams := { stdout := 1, stderr := 2 } }).1
          ≠ Except.ok r := by
  constructor
  · rfl
  · intro r h
    exact absurd h (by simp [extract_package_types, raisingWorld, insert_sys_path])

/-- C2 (corrected): when the top-level import fails with an ImportError,
the result is the structured error dictionary, whose constructor carries
the error string and no other field (in particular no modules), wrapped
in Except.ok, so nothing is raised to the caller; when the import fails
with any other exception, that exception propagates instead. -/
theorem C2_import_error (w : PackageWorld)
    (package_name site_packages_path : String) (pip_name : Option String)
    (nowIso : String) (st0 : ProcState) (e : String)
    (h : w.mainImport = MainImportOutcome.importError e) :
    (extract_package_types w package_name site_packages_path pip_name
        nowIso st0).1
      = Except.ok (ExtractResult.errorDict
          ("Failed to import " ++ package_name ++ ": " ++ e))
    ∧ ∀ (w2 : PackageWorld) (msg : String),
        w2.mainImport = MainImportOutcome.otherExc msg →
        (extract_package_types w2 package_name site_packages_path pip_name
            nowIso st0).1 = Except.error msg := by
  constructor
  · unfold extract_package_types
    rw [h]
  · intro w2 msg h2
    unfold extract_package_types
    rw [h2]

/-- An importable world whose import fails with ImportError, used to
instantiate the C2 theorem. -/
def notFoundWorld : PackageWorld :=
  { mainImport := MainImportOutcome.importError "No module named nope",
    versionAttr := Option.none,
    metadataVersion := fun _ => Option.none,
    packagePath := Option.none }

theorem C2_witness :
    (extract_package_types notFoundWorld "nope" "sp" Option.none "t"
        { sysPath := [], streams := { stdout := 1, stderr := 2 } }).1
      = Except.ok (ExtractResult.errorDict
          ("Failed to import " ++ "nope" ++ ": " ++ "No module named nope"))
    ∧ ∀ (w2 : PackageWorld) (msg : String),
        w2.mainImport = MainImportOutcome.otherExc msg →
        (extract_package_types w2 "nope" "sp" Option.none "t"
            { sysPath := [], streams := { stdout := 1, stderr := 2 } }).1
          = Except.error msg :=
  C2_import_error notFoundWorld "nope" "sp" Option.none "t"
    { sysPath := [], streams := { stdout := 1, stderr := 2 } }
    "No module named nope" rfl

/-! ## Claim C3 -/

theorem schema_of_modules (w : PackageWorld) (package_name : String)
    (pip_name : Option String) (nowIso : String) (mm : PyModule) :
    (schema_of w package_name pip_name nowIso mm).modules =
      extract_module_info mm package_name ::
        (candidate_files w).filterMap (submodule_contrib package_name) := rfl

/-- C3 (confirmed): when any candidate submodule import raises an
exception or requests process exit, the assembler still returns a
schema (the failure never escalates past it), that submodule is absent
from the modules list, and every other candidate that imports
successfully and contributes at least one function or class is still
walked and present. Candidate stems are assumed pairwise distinct, as
produced by a filesystem glob. -/
theorem C3_failed_submodule_skipped
    (w : PackageWorld) (package_name site_packages_path : String)
    (pip_name : Option String) (nowIso : String) (st0 : ProcState)
    (mm : PyModule) (f : SubFile)
    (hok : w.mainImport = MainImportOutcome.ok mm)
    (hmem : f ∈ candidate_files w)
    (hfail : f.importOutcome = SubImportOutcome.exc ∨
             f.importOutcome = SubImportOutcome.exit)
    (hstems : ((candidate_files w).map SubFile.stem).Nodup) :
    ∃ s : Schema,
      (extract_package_types w package_name site_packages_path pip_name
          nowIso st0).1
        = Except.ok (ExtractResult.schema s)
      ∧ (∀ md ∈ s.modules, md.name ≠ package_name ++ "." ++ f.stem)
      ∧ (∀ g ∈ candidate_files w, ¬ startsWithUnderscore g.name = true →
          ∀ sm, g.importOutcome = SubImportOutcome.ok sm →
          ((extract_module_info sm (package_name ++ "." ++ g.stem)).functions ≠ [] ∨
           (extract_module_info sm (package_name ++ "." ++ g.stem)).classes ≠ []) →
          extract_module_info sm (package_name ++ "." ++ g.stem) ∈ s.modules) := by
  refine ⟨schema_of w package_name pip_name nowIso mm, ?_, ?_, ?_⟩
  · rw [extract_package_types_ok w package_name site_packages_path pip_name
      nowIso st0 mm hok]
  · intro md hmd
    rw [schema_of_modules] at hmd
    rcases List.mem_cons.mp hmd with hmain | htail
    · rw [hmain, extract_module_info_name]
      exact string_ne_append_dot package_name f.stem
    · obtain ⟨g, hg, hcontrib⟩ := List.mem_filterMap.mp htail
      obtain ⟨sm, hgo, hmd_eq⟩ := submodule_contrib_eq_some _ _ _ hcontrib
      rw [hmd_eq, extract_module_info_name]
      intro heq
      have hstem : g.stem = f.stem :=
        string_append_left_cancel (package_name ++ ".") _ _ heq
      have hgf : g = f :=
        List.inj_on_of_nodup_map hstems hg hmem hstem
      rw [hgf] at hgo
      rcases hfail with h1 | h1 <;> rw [h1] at hgo <;> exact absurd hgo (by simp)
  · intro g hg hnu sm hgok hne
    have hb : ¬ (((extract_module_info sm (package_name ++ "." ++ g.stem)).functions.isEmpty &&
        (extract_module_info sm (package_name ++ "." ++ g.stem)).classes.isEmpty) = true) := by
      simp only [Bool.and_eq_true, List.isEmpty_iff]
      rcases hne with h1 | h1
      · intro hcontra
        exact h1 hcontra.1
      · intro hcontra
        exact h1 hcontra.2
    have hcontrib : submodule_contrib package_name g =
        some (extract_module_info sm (package_name ++ "." ++ g.stem)) := by
      unfold submodule_contrib
      rw [if_neg hnu, hgok]
      simp only [if_neg hb]
    rw [schema_of_modules]
    exact List.mem_cons_of_mem _ (List.mem_filterMap.mpr ⟨g, hg, hcontrib⟩)

def simpleSig : PySignature := { params := [], returnAnnot := Annot.intTy }

def simpleFunc : PyFunc :=
  { sig := some simpleSig, hints := [], docstring := Option.none,
    isAsync := false }

def goodObj : PyObj :=
  { declaredModule := some "p.good", payload := PyPayload.func simpleFunc }

def goodSubModule : PyModule :=
  { name := "p.good", file := Option.none, all := Option.none,
    entries := [("g", some goodObj)], doc := Option.none }

def subOkFile : SubFile :=
  { name := "good.py", stem := "good", streamEffect := id,
    importOutcome := SubImportOutcome.ok goodSubModule }

def subBadFile : SubFile :=
  { name := "bad.py", stem := "bad", streamEffect := id,
    importOutcome := SubImportOutcome.exc }

def dirC3 : PathDir := { pathExists := true, files := [subBadFile, subOkFile] }

def mainModW : PyModule :=
  { name := "p", file := Option.none, all := Option.none, entries := [],
    doc := Option.none }

def worldC3 : PackageWorld :=
  { mainImport := MainImportOutcome.ok mainModW, versionAttr := some "1",
    metadataVersion := fun _ => Option.none, packagePath := some [dirC3] }

theorem C3_witness :
    ∃ s : Schema,
      (extract_package_types worldC3 "p" "sp" Option.none "t"
          { sysPath := [], streams := { stdout := 1, stderr := 2 } }).1
        = Except.ok (ExtractResult.schema s)
      ∧ (∀ md ∈ s.modules, md.name ≠ "p" ++ "." ++ SubFile.stem subBadFile)
      ∧ (∀ g ∈ candidate_files worldC3, ¬ startsWithUnderscore g.name = true →
          ∀ sm, g.importOutcome = SubImportOutcome.ok sm →
          ((extract_module_info sm ("p" ++ "." ++ g.stem)).functions ≠ [] ∨
           (extract_module_info sm ("p" ++ "." ++ g.stem)).classes ≠ []) →
          extract_module_info sm ("p" ++ "." ++ g.stem) ∈ s.modules) :=
  C3_failed_submodule_skipped worldC3 "p" "sp" Option.none "t"
    { sysPath := [], streams := { stdout := 1, stderr := 2 } }
    mainModW subBadFile rfl
    (by
      rw [show candidate_files worldC3 = [subBadFile, subOkFile] from rfl]
      exact List.mem_cons_self _ _)
    (Or.inl rfl)
    (by
      rw [show (candidate_files worldC3).map SubFile.stem = ["bad", "good"]
        from rfl]
      simp)

/-! ## Claim C1 -/

theorem schema_of_missing (w : PackageWorld) (package_name : String)
    (pip_name : Option String) (nowIso : String) (mm : PyModule) :
    (schema_of w package_name pip_name nowIso mm).missingAnnotations =
      count_missing_annotations
        ((schema_of w package_name pip_name nowIso mm).modules) := rfl

theorem schema_of_coverage (w : PackageWorld) (package_name : String)
    (pip_name : Option String) (nowIso : String) (mm : PyModule) :
    (schema_of w package_name pip_name nowIso mm).typeAnnotationCoverage =
      round2 (if totalItems ((schema_of w package_name pip_name nowIso mm).modules) > 0
        then ((totalItems ((schema_of w package_name pip_name nowIso mm).modules) : ℚ)
              - ((count_missing_annotations
                    ((schema_of w package_name pip_name nowIso mm).modules)).length : ℚ))
             / (totalItems ((schema_of w package_name pip_name nowIso mm).modules) : ℚ)
             * 100
        else 100) := rfl

/-- C1 (corrected): for every schema produced by extract_package_types,
typeAnnotationCoverage equals (total minus missingCount) over total
times 100 rounded to 2 decimal places (with total the returns plus
parameter counts of all functions and methods of the included modules),
is exactly 100 when total is 0, and is at most 100 always; but it is
strictly below 100 only when the missing entries are a large enough
fraction of the slots (total below 20000 times missingCount): rounding
to 2 decimal places can bring a schema with a non-empty
missingAnnotations list back up to exactly 100. -/
theorem C1_coverage (w : PackageWorld)
    (package_name site_packages_path : String) (pip_name : Option String)
    (nowIso : String) (st0 : ProcState) (s : Schema) (stF : ProcState)
    (h : extract_package_types w package_name site_packages_path pip_name
        nowIso st0 = (Except.ok (ExtractResult.schema s), stF)) :
    s.missingAnnotations = count_missing_annotations s.modules
    ∧ s.typeAnnotationCoverage =
        round2 (if totalItems s.modules > 0
          then ((totalItems s.modules : ℚ) - (s.missingAnnotations.length : ℚ))
               / (totalItems s.modules : ℚ) * 100
          else 100)
    ∧ (totalItems s.modules = 0 → s.typeAnnotationCoverage = 100)
    ∧ s.typeAnnotationCoverage ≤ 100
    ∧ (s.missingAnnotations ≠ [] →
        totalItems s.modules < 20000 * s.missingAnnotations.length →
        s.typeAnnotationCoverage < 100) := by
  cases hw : w.mainImport with
  | importError msg =>
    unfold extract_package_types at h
    rw [hw] at h
    simp at h
  | otherExc msg =>
    unfold extract_package_types at h
    rw [hw] at h
    simp at h
  | ok mm =>
    rw [extract_package_types_ok w package_name site_packages_path pip_name
      nowIso st0 mm hw] at h
    simp only [Prod.mk.injEq, Except.ok.injEq, ExtractResult.schema.injEq] at h
    obtain ⟨hs, hstF⟩ := h
    subst hs
    refine ⟨schema_of_missing w package_name pip_name nowIso mm, ?_, ?_, ?_, ?_⟩
    · rw [schema_of_coverage, schema_of_missing]
    · intro h0
      rw [schema_of_coverage, if_neg (by omega), round2_100]
    · rw [schema_of_coverage]
      by_cases hpos : totalItems ((schema_of w package_name pip_name nowIso mm).modules) > 0
      · rw [if_pos hpos]
        apply round2_le_100
        have ht : (0 : ℚ) <
            (totalItems ((schema_of w package_name pip_name nowIso mm).modules) : ℚ) := by
          exact_mod_cast hpos
        have hm : (0 : ℚ) ≤
            ((count_missing_annotations
              ((schema_of w package_name pip_name nowIso mm).modules)).length : ℚ) := by
          positivity
        have hq : ((totalItems ((schema_of w package_name pip_name nowIso mm).modules) : ℚ)
            - ((count_missing_annotations
                ((schema_of w package_name pip_name nowIso mm).modules)).length : ℚ))
            / (totalItems ((schema_of w package_name pip_name nowIso mm).modules) : ℚ) ≤ 1 := by
          rw [div_le_one ht]
          linarith
        nlinarith
      · rw [if_neg hpos, round2_100]
    · intro hne hlt
      rw [schema_of_missing] at hne hlt
      have htne : totalItems ((schema_of w package_name pip_name nowIso mm).modules) ≠ 0 := by
        intro h0
        exact hne (count_missing_eq_nil_of_totalItems_eq_zero _ h0)
      rw [schema_of_coverage, if_pos (by omega)]
      apply round2_lt_100
      have ht : (0 : ℚ) <
          (totalItems ((schema_of w package_name pip_name nowIso mm).modules) : ℚ) := by
        have : 0 < totalItems ((schema_of w package_name pip_name nowIso mm).modules) := by
          omega
        exact_mod_cast this
      have hcast : (totalItems ((schema_of w package_name pip_name nowIso mm).modules) : ℚ)
          < 20000 * ((count_missing_annotations
              ((schema_of w package_name pip_name nowIso mm).modules)).length : ℚ) := by
        exact_mod_cast hlt
      rw [div_mul_eq_mul_div, div_lt_iff₀ ht]
      ring_nf
      nlinarith

/-- A package world whose main module binds nothing: zero annotatable
slots, used to instantiate the C1 theorem. -/
def emptyModule : PyModule :=
  { name := "m", file := Option.none, all := Option.none,
    entries := [], doc := Option.none }

def emptyWorld : PackageWorld :=
  { mainImport := MainImportOutcome.ok emptyModule,
    versionAttr := some "1",
    metadataVersion := fun _ => Option.none,
    packagePath := Option.none }

def emptySchemaW : Schema :=
  schema_of emptyWorld "m" Option.none "t" emptyModule

theorem C1_witness :
    emptySchemaW.missingAnnotations = count_missing_annotations emptySchemaW.modules
    ∧ emptySchemaW.typeAnnotationCoverage =
        round2 (if totalItems emptySchemaW.modules > 0
          then ((totalItems emptySchemaW.modules : ℚ)
                - (emptySchemaW.missingAnnotations.length : ℚ))
               / (totalItems emptySchemaW.modules : ℚ) * 100
          else 100)
    ∧ (totalItems emptySchemaW.modules = 0 →
        emptySchemaW.typeAnnotationCoverage = 100)
    ∧ emptySchemaW.typeAnnotationCoverage ≤ 100
    ∧ (emptySchemaW.missingAnnotations ≠ [] →
        totalItems emptySchemaW.modules < 20000 * emptySchemaW.missingAnnotations.length →
        emptySchemaW.typeAnnotationCoverage < 100) :=
  C1_coverage emptyWorld "m" "sp" Option.none "t"
    { sysPath := ["sp"], streams := { stdout := 1, stderr := 2 } }
    emptySchemaW
    { sysPath := ["sp"], streams := { stdout := 1, stderr := 2 } }
    (by
      rw [extract_package_types_ok emptyWorld "m" "sp" Option.none "t"
        { sysPath := ["sp"], streams := { stdout := 1, stderr := 2 } }
        emptyModule rfl]
      unfold emptySchemaW insert_sys_path
      rw [if_pos (by simp)])

/-! ### C1 counterexample: a schema with one missing annotation out of
20001 slots rounds back up to exactly 100. -/

/-- The number of parameters of the wide function below. Kept behind a
name so that list lemmas about replicate apply symbolically. -/
def bigN : Nat := 20000

def bigParam : PyParam :=
  { name := "a", annot := Annot.intTy, defaultRepr := Option.none }

def bigFunc : PyFunc :=
  { sig := some { params := List.replicate bigN bigParam,
                  returnAnnot := Annot.empty },
    hints := [], docstring := Option.none, isAsync := false }

def bigObj : PyObj :=
  { declaredModule := some "m", payload := PyPayload.func bigFunc }

def bigModule : PyModule :=
  { name := "m", file := Option.none, all := Option.none,
    entries := [("f", some bigObj)], doc := Option.none }

def bigWorld : PackageWorld :=
  { mainImport := MainImportOutcome.ok bigModule,
    versionAttr := some "1",
    metadataVersion := fun _ => Option.none,
    packagePath := Option.none }

def bigParamDesc : ParamDesc :=
  { name := "a", type := TypeDesc.primitive "int", optional := false,
    default := Option.none }

def bigFuncDesc : FunctionDesc :=
  { name := "f", params := List.replicate bigN bigParamDesc,
    returnType := TypeDesc.any, docstring := Option.none,
    isAsync := false, isMethod := false }

def bigModuleDesc : ModuleDesc :=
  { name := "m", path := "", functions := [bigFuncDesc], classes := [],
    constants := [], docstring := Option.none }

theorem big_extract_function :
    extract_function_info bigFunc "f" = some bigFuncDesc := by
  unfold extract_function_info bigFunc bigFuncDesc
  simp only [Option.some.injEq]
  rw [List.filter_replicate_of_pos (by rfl), List.map_replicate]
  simp [bigParam, bigParamDesc, hintsGet, parse_type_annot]

theorem big_pass : entry_passes bigModule ("f", some bigObj) = some ("f", bigObj) := rfl

theorem big_module_info :
    extract_module_info bigModule "m" = bigModuleDesc := by
  unfold extract_module_info
  rw [show bigModule.entries = [("f", some bigObj)] from rfl]
  rw [List.filterMap_cons, big_pass]
  simp only [List.filterMap_nil]
  unfold funcs_of classes_of consts_of bigModuleDesc
  simp only [List.filterMap_cons, List.filterMap_nil]
  rw [show bigObj.payload = PyPayload.func bigFunc from rfl]
  simp only [big_extract_function]
  rfl

theorem big_missing :
    count_missing_annotations [bigModuleDesc] = ["m.f (return type)"] := by
  unfold count_missing_annotations bigModuleDesc missingOfFunc bigFuncDesc
  simp only [List.flatMap_cons, List.flatMap_nil, List.append_nil, isAnyKind]
  rw [List.filterMap_replicate_of_none (by rfl)]
  rfl

theorem big_total : totalItems [bigModuleDesc] = 20001 := by
  unfold totalItems bigModuleDesc slotCount bigFuncDesc
  simp only [List.map_cons, List.map_nil, List.sum_cons, List.sum_nil,
    List.length_replicate]
  unfold bigN
  omega

theorem big_round : round2 ((((20001 : ℚ)) - 1) / 20001 * 100) = 100 := by
  have hx : ((((20001 : ℚ)) - 1) / 20001 * 100) * 100 = 200000000/20001 := by
    norm_num
  have hfl : ⌊(200000000/20001 : ℚ)⌋ = 9999 := by
    rw [Int.floor_eq_iff]
    constructor <;> norm_num
  unfold round2 roundHalfEven
  rw [hx, hfl]
  rw [if_neg (by norm_num), if_pos (by norm_num)]
  norm_num

/-- C1 counterexample: an extracted schema whose missingAnnotations list
is non-empty (one missing return type) while typeAnnotationCoverage is
exactly 100: the main module holds one function with 20000 annotated
parameters and an unannotated return, so the unrounded coverage
20000000/20001 rounds up to 100.00, refuting the claim that coverage is
strictly below 100 whenever missingAnnotations is non-empty. -/
theorem C1_counterexample :
    ∃ s : Schema,
      (extract_package_types bigWorld "m" "sp" Option.none "t"
          { sysPath := [], streams := { stdout := 1, stderr := 2 } }).1
        = Except.ok (ExtractResult.schema s)
      ∧ s.missingAnnotations ≠ []
      ∧ s.typeAnnotationCoverage = 100 := by
  have hmods : (schema_of bigWorld "m" Option.none "t" bigModule).modules =
      [bigModuleDesc] := by
    rw [schema_of_modules, big_module_info]
    rfl
  refine ⟨schema_of bigWorld "m" Option.none "t" bigModule, ?_, ?_, ?_⟩
  · rw [extract_package_types_ok bigWorld "m" "sp" Option.none "t" _ bigModule rfl]
  · rw [schema_of_missing, hmods, big_missing]
    simp
  · rw [schema_of_coverage, hmods, big_missing, big_total]
    rw [if_pos (by norm_num)]
    simpa using big_round

/-! ## Claim C4 -/

theorem isNoneType_iff (a : Annot) :
    Annot.isNoneType a = true ↔ a = Annot.noneType := by
  cases a <;> simp [Annot.isNoneType]

/-- Reduction of the resolver on a union annotation, with the pointwise
list resolution written as a map. -/
theorem parse_unionG (args : List Annot) :
    parse_type_annot (Annot.unionG args) =
      if args.any Annot.isNoneType then
        match (args.filter (fun a => ! Annot.isNoneType a)).map parse_type_annot with
        | [d] => TypeDesc.optional d
        | _ => TypeDesc.any
      else TypeDesc.any := by
  rw [parse_type_annot, parse_annot_list_eq_map]

/-- C4 (confirmed): the resolver turns a union whose argument set is
exactly a single non-null T together with NoneType into optional of the
resolution of T; a multi-member union without a null member, or with two
or more non-null members, resolves to any; and a union never resolves to
anything except such an optional or any. The converse holds as well for
deduplicated argument lists (typing.Union always deduplicates): whenever
the result is an optional, the argument set was exactly such a pair. -/
theorem C4_union_resolution (args : List Annot) (hnd : args.Nodup) :
    (∀ T : Annot, T ≠ Annot.noneType → args.Perm [T, Annot.noneType] →
        parse_type_annot (Annot.unionG args) =
          TypeDesc.optional (parse_type_annot T))
    ∧ (Annot.noneType ∉ args →
        parse_type_annot (Annot.unionG args) = TypeDesc.any)
    ∧ (2 ≤ (args.filter (fun a => ! Annot.isNoneType a)).length →
        parse_type_annot (Annot.unionG args) = TypeDesc.any)
    ∧ (∀ d : TypeDesc,
        parse_type_annot (Annot.unionG args) = TypeDesc.optional d →
        ∃ T, T ≠ Annot.noneType ∧ args.Perm [T, Annot.noneType] ∧
          d = parse_type_annot T)
    ∧ (parse_type_annot (Annot.unionG args) = TypeDesc.any ∨
        ∃ T, T ∈ args ∧ T ≠ Annot.noneType ∧
          parse_type_annot (Annot.unionG args) =
            TypeDesc.optional (parse_type_annot T)) := by
  refine ⟨?_, ?_, ?_, ?_, ?_⟩
  · intro T hT hperm
    have hfT : args.filter (fun a => ! Annot.isNoneType a) = [T] := by
      have h1 : (args.filter (fun a => ! Annot.isNoneType a)).Perm
          (List.filter (fun a => ! Annot.isNoneType a) [T, Annot.noneType]) :=
        hperm.filter _
      have h2 : List.filter (fun a => ! Annot.isNoneType a) [T, Annot.noneType]
          = [T] := by
        simp [List.filter_cons, Annot.isNoneType,
          (by simpa using (not_iff_not.mpr (isNoneType_iff T)).mpr hT :
            Annot.isNoneType T = false)]
      rw [h2] at h1
      exact List.perm_singleton.mp h1
    have hmem : Annot.noneType ∈ args := hperm.mem_iff.mpr (by simp)
    have hany : args.any Annot.isNoneType = true := by
      rw [List.any_eq_true]
      exact ⟨Annot.noneType, hmem, by simp [Annot.isNoneType]⟩
    rw [parse_unionG, if_pos hany, hfT]
    simp only [List.map_cons, List.map_nil]
  · intro hna
    rw [parse_unionG, if_neg ?_]
    rw [List.any_eq_true]
    rintro ⟨x, hx, hxt⟩
    exact hna ((isNoneType_iff x).mp hxt ▸ hx)
  · intro hlen
    rw [parse_unionG]
    by_cases hc : args.any Annot.isNoneType = true
    · rw [if_pos hc]
      rcases hl : (args.filter (fun a => ! Annot.isNoneType a)).map parse_type_annot
          with _ | ⟨d, _ | ⟨d2, rest⟩⟩
      · rfl
      · exfalso
        have := congrArg List.length hl
        simp at this
        omega
      · rfl
    · rw [if_neg hc]
  · intro d hd
    rw [parse_unionG] at hd
    by_cases hc : args.any Annot.isNoneType = true
    · rw [if_pos hc] at hd
      rcases hf : args.filter (fun a => ! Annot.isNoneType a) with _ | ⟨t, _ | ⟨t2, rest⟩⟩
      · rw [hf] at hd
        simp at hd
      · rw [hf] at hd
        simp only [List.map_cons, List.map_nil] at hd
        have hdt : d = parse_type_annot t := by
          have := TypeDesc.optional.inj hd
          exact this.symm
        have htmem : t ∈ args.filter (fun a => ! Annot.isNoneType a) := by
          rw [hf]; exact List.mem_singleton_self t
        have htargs : t ∈ args := List.mem_of_mem_filter htmem
        have htne : t ≠ Annot.noneType := by
          have := (List.mem_filter.mp htmem).2
          simp only [Bool.not_eq_eq_eq_not, Bool.not_true] at this
          intro he
          rw [he] at this
          simp [Annot.isNoneType] at this
        refine ⟨t, htne, ?_, hdt⟩
        have hnmem : Annot.noneType ∈ args := by
          rw [List.any_eq_true] at hc
          obtain ⟨x, hx, hxt⟩ := hc
          exact (isNoneType_iff x).mp hxt ▸ hx
        have hnd2 : List.Nodup [t, Annot.noneType] := by
          simp [htne]
        rw [List.perm_ext_iff_of_nodup hnd hnd2]
        intro x
        constructor
        · intro hx
          by_cases hxn : x = Annot.noneType
          · simp [hxn]
          · have hxf : x ∈ args.filter (fun a => ! Annot.isNoneType a) := by
              refine List.mem_filter.mpr ⟨hx, ?_⟩
              simp only [Bool.not_eq_eq_eq_not, Bool.not_true]
              rcases hb : Annot.isNoneType x with _ | _
              · rfl
              · exact absurd ((isNoneType_iff x).mp hb) hxn
            rw [hf] at hxf
            simp at hxf
            simp [hxf]
        · intro hx
          rcases List.mem_pair.mp hx with h1 | h1
          · rw [h1]; exact htargs
          · rw [h1]; exact hnmem
      · rw [hf] at hd
        simp at hd
    · rw [if_neg hc] at hd
      simp at hd
  · rw [parse_unionG]
    by_cases hc : args.any Annot.isNoneType = true
    · rw [if_pos hc]
      rcases hf : args.filter (fun a => ! Annot.isNoneType a) with _ | ⟨t, _ | ⟨t2, rest⟩⟩
      · exact Or.inl rfl
      · refine Or.inr ⟨t, ?_, ?_, ?_⟩
        · exact List.mem_of_mem_filter (by rw [hf]; exact List.mem_singleton_self t)
        · have htmem : t ∈ args.filter (fun a => ! Annot.isNoneType a) := by
            rw [hf]; exact List.mem_singleton_self t
          have := (List.mem_filter.mp htmem).2
          simp only [Bool.not_eq_eq_eq_not, Bool.not_true] at this
          intro he
          rw [he] at this
          simp [Annot.isNoneType] at this
        · simp
      · exact Or.inl rfl
    · rw [if_neg hc]
      exact Or.inl rfl

theorem C4_witness :
    (∀ T : Annot, T ≠ Annot.noneType →
        List.Perm [Annot.intTy, Annot.noneType] [T, Annot.noneType] →
        parse_type_annot (Annot.unionG [Annot.intTy, Annot.noneType]) =
          TypeDesc.optional (parse_type_annot T))
    ∧ (Annot.noneType ∉ [Annot.intTy, Annot.noneType] →
        parse_type_annot (Annot.unionG [Annot.intTy, Annot.noneType]) = TypeDesc.any)
    ∧ (2 ≤ (List.filter (fun a => ! Annot.isNoneType a)
          [Annot.intTy, Annot.noneType]).length →
        parse_type_annot (Annot.unionG [Annot.intTy, Annot.noneType]) = TypeDesc.any)
    ∧ (∀ d : TypeDesc,
        parse_type_annot (Annot.unionG [Annot.intTy, Annot.noneType]) =
          TypeDesc.optional d →
        ∃ T, T ≠ Annot.noneType ∧
          List.Perm [Annot.intTy, Annot.noneType] [T, Annot.noneType] ∧
          d = parse_type_annot T)
    ∧ (parse_type_annot (Annot.unionG [Annot.intTy, Annot.noneType]) = TypeDesc.any ∨
        ∃ T, T ∈ [Annot.intTy, Annot.noneType] ∧ T ≠ Annot.noneType ∧
          parse_type_annot (Annot.unionG [Annot.intTy, Annot.noneType]) =
            TypeDesc.optional (parse_type_annot T)) :=
  C4_union_resolution [Annot.intTy, Annot.noneType] (by simp)

/-! ## Claim C7 -/

mutual

/-- The canonical runtime annotation denoting a descriptor: the output
representation of the resolver read back as an annotation (primitive
names as the builtin classes, list/dict/tuple as the corresponding
generics, optional T as the union of T with NoneType, class names as
class objects, none as the None object, any as the absent-annotation
sentinel). Used to state that re-resolving the representation of the
resolver output reproduces that output. -/
def annotOfDesc : TypeDesc → Annot
  | TypeDesc.none => Annot.pyNone
  | TypeDesc.any => Annot.empty
  | TypeDesc.primitive v =>
      if v = "str" then Annot.strTy
      else if v = "int" then Annot.intTy
      else if v = "float" then Annot.floatTy
      else if v = "bool" then Annot.boolTy
      else Annot.strRef v
  | TypeDesc.list e => Annot.listG [annotOfDesc e]
  | TypeDesc.dict k v => Annot.dictG [annotOfDesc k, annotOfDesc v]
  | TypeDesc.tuple es => Annot.tupleG (annotOfDescList es)
  | TypeDesc.optional t => Annot.unionG [annotOfDesc t, Annot.noneType]
  | TypeDesc.cls n => Annot.classTy n
termination_by d => sizeOf d
decreasing_by
  all_goals simp_wf
  all_goals omega

/-- Pointwise representation of a descriptor list. -/
def annotOfDescList : List TypeDesc → List Annot
  | [] => []
  | d :: ds => annotOfDesc d :: annotOfDescList ds
termination_by l => sizeOf l
decreasing_by
  all_goals simp_wf
  all_goals omega

end

theorem annotOfDescList_eq_map (l : List TypeDesc) :
    annotOfDescList l = l.map annotOfDesc := by
  induction l with
  | nil => simp [annotOfDescList]
  | cons d ds ih => simp [annotOfDescList, ih]

theorem annotOfDesc_ne_noneType (d : TypeDesc) :
    annotOfDesc d ≠ Annot.noneType := by
  cases d with
  | primitive v =>
    simp only [annotOfDesc]
    split_ifs <;> simp
  | _ => simp [annotOfDesc]

theorem isNoneType_eq_false_of_ne (a : Annot) (h : a ≠ Annot.noneType) :
    Annot.isNoneType a = false := by
  rcases hb : Annot.isNoneType a with _ | _
  · rfl
  · exact absurd ((isNoneType_iff a).mp hb) h

theorem isNoneType_annotOfDesc (d : TypeDesc) :
    Annot.isNoneType (annotOfDesc d) = false :=
  isNoneType_eq_false_of_ne _ (annotOfDesc_ne_noneType d)

theorem parse_annotOfDesc_parse_aux : ∀ (n : Nat) (a : Annot), sizeOf a ≤ n →
    parse_type_annot (annotOfDesc (parse_type_annot a)) = parse_type_annot a := by
  intro n
  induction n with
  | zero =>
    intro a h
    exfalso
    cases a <;> simp at h
  | succ n ih =>
    intro a hsz
    cases a with
    | pyNone => simp [parse_type_annot, annotOfDesc]
    | noneType => simp [parse_type_annot, annotOfDesc]
    | empty => simp [parse_type_annot, annotOfDesc]
    | strRef s =>
      simp only [parse_type_annot]
      split_ifs <;> simp [annotOfDesc, parse_type_annot]
    | strTy => simp [parse_type_annot, annotOfDesc]
    | intTy => simp [parse_type_annot, annotOfDesc]
    | floatTy => simp [parse_type_annot, annotOfDesc]
    | boolTy => simp [parse_type_annot, annotOfDesc]
    | classTy nm => simp [parse_type_annot, annotOfDesc]
    | special txt => simp [parse_type_annot, annotOfDesc]
    | listG args =>
      cases args with
      | nil => simp [parse_type_annot, annotOfDesc]
      | cons a rest =>
        have ha : sizeOf a ≤ n := by
          have hspec : sizeOf (Annot.listG (a :: rest)) =
              1 + (1 + sizeOf a + sizeOf rest) := by simp
          omega
        simp only [parse_type_annot, annotOfDesc]
        rw [ih a ha]
    | dictG args =>
      match args with
      | [] => simp [parse_type_annot, annotOfDesc]
      | [k] =>
        have hk : sizeOf k ≤ n := by
          have hspec : sizeOf (Annot.dictG [k]) = 1 + (1 + sizeOf k + 1) := by simp
          omega
        simp only [parse_type_annot, annotOfDesc]
        rw [ih k hk]
      | k :: v :: rest =>
        have hk : sizeOf k ≤ n := by
          have hspec : sizeOf (Annot.dictG (k :: v :: rest)) =
              1 + (1 + sizeOf k + (1 + sizeOf v + sizeOf rest)) := by simp
          omega
        have hv : sizeOf v ≤ n := by
          have hspec : sizeOf (Annot.dictG (k :: v :: rest)) =
              1 + (1 + sizeOf k + (1 + sizeOf v + sizeOf rest)) := by simp
          omega
        simp only [parse_type_annot, annotOfDesc]
        rw [ih k hk, ih v hv]
    | tupleG args =>
      simp only [parse_type_annot, annotOfDesc, parse_annot_list_eq_map,
        annotOfDescList_eq_map, List.map_map]
      apply congrArg
      apply List.map_congr_left
      intro x hx
      have hx_size : sizeOf x ≤ n := by
        have h1 := List.sizeOf_lt_of_mem hx
        have hspec : sizeOf (Annot.tupleG args) = 1 + sizeOf args := by simp
        omega
      simpa [Function.comp] using ih x hx_size
    | unionG args =>
      rw [parse_unionG]
      by_cases hc : args.any Annot.isNoneType = true
      · rw [if_pos hc]
        rcases hf : args.filter (fun a => ! Annot.isNoneType a)
            with _ | ⟨t, _ | ⟨t2, rest⟩⟩
        · simp [annotOfDesc, parse_type_annot]
        · simp only [List.map_cons, List.map_nil]
          have ht_mem : t ∈ args :=
            List.mem_of_mem_filter (by rw [hf]; exact List.mem_singleton_self t)
          have ht_size : sizeOf t ≤ n := by
            have h1 := List.sizeOf_lt_of_mem ht_mem
            have hspec : sizeOf (Annot.unionG args) = 1 + sizeOf args := by simp
            omega
          simp only [annotOfDesc]
          rw [parse_unionG]
          have hany2 : [annotOfDesc (parse_type_annot t), Annot.noneType].any
              Annot.isNoneType = true := by
            simp [Annot.isNoneType]
          rw [if_pos hany2]
          have hfilter2 : List.filter (fun a => ! Annot.isNoneType a)
              [annotOfDesc (parse_type_annot t), Annot.noneType]
              = [annotOfDesc (parse_type_annot t)] := by
            simp [List.filter_cons, isNoneType_annotOfDesc,
              show Annot.isNoneType Annot.noneType = true from rfl]
          rw [hfilter2]
          simp only [List.map_cons, List.map_nil]
          rw [ih t ht_size]
        · simp [annotOfDesc, parse_type_annot]
      · rw [if_neg hc]
        simp [annotOfDesc, parse_type_annot]

/-- C7 (confirmed): the resolver recurses correctly into the canonical
generic forms (a one-argument list generic, a two-argument dict generic,
a tuple generic of any arity, and the optional form, which at runtime is
the union of its argument with NoneType), and it is idempotent on
re-resolution of its own output representation: resolving the canonical
annotation form of any descriptor the resolver produced yields that same
descriptor. -/
theorem C7_generic_recursion (t k v T : Annot) (ts : List Annot)
    (hT : T ≠ Annot.noneType) :
    parse_type_annot (Annot.listG [t]) = TypeDesc.list (parse_type_annot t)
    ∧ parse_type_annot (Annot.dictG [k, v]) =
        TypeDesc.dict (parse_type_annot k) (parse_type_annot v)
    ∧ parse_type_annot (Annot.tupleG ts) =
        TypeDesc.tuple (ts.map parse_type_annot)
    ∧ parse_type_annot (Annot.unionG [T, Annot.noneType]) =
        TypeDesc.optional (parse_type_annot T)
    ∧ ∀ a : Annot, parse_type_annot (annotOfDesc (parse_type_annot a)) =
        parse_type_annot a := by
  refine ⟨?_, ?_, ?_, ?_, ?_⟩
  · simp [parse_type_annot]
  · simp [parse_type_annot]
  · simp only [parse_type_annot]
    rw [parse_annot_list_eq_map]
  · rw [parse_unionG]
    have hany : [T, Annot.noneType].any Annot.isNoneType = true := by
      simp [Annot.isNoneType]
    rw [if_pos hany]
    have hfilter : List.filter (fun a => ! Annot.isNoneType a)
        [T, Annot.noneType] = [T] := by
      simp [List.filter_cons, isNoneType_eq_false_of_ne T hT, Annot.isNoneType]
    rw [hfilter]
    simp only [List.map_cons, List.map_nil]
  · intro a
    exact parse_annotOfDesc_parse_aux (sizeOf a) a le_rfl

theorem C7_witness :
    parse_type_annot (Annot.listG [Annot.strTy]) =
        TypeDesc.list (parse_type_annot Annot.strTy)
    ∧ parse_type_annot (Annot.dictG [Annot.intTy, Annot.boolTy]) =
        TypeDesc.dict (parse_type_annot Annot.intTy) (parse_type_annot Annot.boolTy)
    ∧ parse_type_annot (Annot.tupleG []) =
        TypeDesc.tuple (List.map parse_type_annot [])
    ∧ parse_type_annot (Annot.unionG [Annot.floatTy, Annot.noneType]) =
        TypeDesc.optional (parse_type_annot Annot.floatTy)
    ∧ ∀ a : Annot, parse_type_annot (annotOfDesc (parse_type_annot a)) =
        parse_type_annot a :=
  C7_generic_recursion Annot.strTy Annot.intTy Annot.boolTy Annot.floatTy []
    (by simp)

/-! ## Claim C9 -/

/-- C9 (confirmed): for every introspectable callable,
extract_function_info keeps exactly the parameters whose name differs
from the literal self, in order; the test is by name alone, with no
regard to position or to whether the callable is a method, so a free
function loses any parameter named self while a method whose instance
parameter is named otherwise (cls, this) keeps it. -/
theorem C9_self_exclusion (func : PyFunc) (name : String) (sig : PySignature)
    (h : func.sig = some sig) :
    ∃ d, extract_function_info func name = some d ∧
      d.params.map ParamDesc.name =
        (sig.params.map PyParam.name).filter (fun s => !(s == "self")) := by
  unfold extract_function_info
  rw [h]
  refine ⟨_, rfl, ?_⟩
  rw [List.map_map, List.filter_map]
  rfl

def threeParamSig : PySignature :=
  { params := [{ name := "x", annot := Annot.intTy, defaultRepr := Option.none },
               { name := "self", annot := Annot.empty, defaultRepr := Option.none },
               { name := "cls", annot := Annot.empty, defaultRepr := Option.none }],
    returnAnnot := Annot.empty }

def threeParamFunc : PyFunc :=
  { sig := some threeParamSig, hints := [], docstring := Option.none,
    isAsync := false }

theorem C9_witness :
    ∃ d, extract_function_info threeParamFunc "g" = some d ∧
      d.params.map ParamDesc.name =
        (threeParamSig.params.map PyParam.name).filter (fun s => !(s == "self")) :=
  C9_self_exclusion threeParamFunc "g" threeParamSig rfl

/-! ## Claim C10 -/

theorem extract_class_info_constructor (cls : PyClass) :
    (extract_class_info cls).constructor =
      match cls.initFunc with
      | Option.none => Option.none
      | some f =>
        match extract_function_info f "__init__" with
        | Option.none => Option.none
        | some d => some { d with isMethod := true } := rfl

theorem extract_class_info_methods (cls : PyClass) :
    (extract_class_info cls).methods =
      cls.functionMembers.filterMap (fun nf =>
        match nf with
        | (nm, fn) =>
          if startsWithUnderscore nm && !(nm == "__init__") then Option.none
          else
            match extract_function_info fn nm with
            | Option.none => Option.none
            | some d => some { d with isMethod := true }) := rfl

/-- C10 (confirmed): when the class attribute __init__ is a plain
introspectable function (so it is listed by getmembers and its
signature resolves to a descriptor), the extracted class holds that
descriptor, with the method flag set, both in the constructor field and
as an entry of the methods list: the underscore skip rule explicitly
exempts the name __init__, so its return and parameter slots are
counted through the methods list by the missing-annotation walk and the
coverage total. -/
theorem C10_init_in_both (cls : PyClass) (f : PyFunc) (d : FunctionDesc)
    (hinit : cls.initFunc = some f)
    (hmem : ("__init__", f) ∈ cls.functionMembers)
    (hd : extract_function_info f "__init__" = some d) :
    (extract_class_info cls).constructor = some { d with isMethod := true }
    ∧ { d with isMethod := true } ∈ (extract_class_info cls).methods := by
  constructor
  · rw [extract_class_info_constructor, hinit]
    show (match extract_function_info f "__init__" with
          | Option.none => Option.none
          | some d0 => some { d0 with isMethod := true })
        = some { d with isMethod := true }
    rw [hd]
  · rw [extract_class_info_methods]
    apply List.mem_filterMap.mpr
    refine ⟨("__init__", f), hmem, ?_⟩
    show (if startsWithUnderscore "__init__" && !("__init__" == "__init__")
          then Option.none
          else
            match extract_function_info f "__init__" with
            | Option.none => Option.none
            | some d0 => some { d0 with isMethod := true })
        = some { d with isMethod := true }
    rw [if_neg (by decide), hd]

def initSigW : PySignature :=
  { params := [{ name := "self", annot := Annot.empty, defaultRepr := Option.none },
               { name := "x", annot := Annot.intTy, defaultRepr := Option.none }],
    returnAnnot := Annot.pyNone }

def initFuncW : PyFunc :=
  { sig := some initSigW, hints := [], docstring := Option.none, isAsync := false }

def initDescW : FunctionDesc :=
  { name := "__init__",
    params := [{ name := "x", type := TypeDesc.primitive "int",
                 optional := false, default := Option.none }],
    returnType := TypeDesc.none, docstring := Option.none,
    isAsync := false, isMethod := false }

def classW : PyClass :=
  { name := "C", initFunc := some initFuncW,
    functionMembers := [("__init__", initFuncW)],
    propertyMembers := [], doc := Option.none, baseNames := ["object"] }

theorem C10_witness :
    (extract_class_info classW).constructor =
        some { initDescW with isMethod := true }
    ∧ { initDescW with isMethod := true } ∈ (extract_class_info classW).methods :=
  C10_init_in_both classW initFuncW initDescW rfl
    (List.mem_singleton_self _)
    (by simp [extract_function_info, initFuncW, initSigW, initDescW, hintsGet,
      parse_type_annot])

/-! ## Claim C5 -/

/-- A non-callable value with no declared-module attribute, as most
plain data constants (numbers, strings) are in Python. -/
def noModAttrObj : PyObj :=
  { declaredModule := Option.none,
    payload := PyPayload.value false
      { reprStr := "3.14", isDictOrList := false, typeAnnot := Annot.floatTy } }

def noModAttrModule : PyModule :=
  { name := "m", file := Option.none, all := Option.none,
    entries := [("X", some noModAttrObj)], doc := Option.none }

/-- C5 counterexample: a module-level binding X whose object carries no
declared-module attribute at all (as a float constant assigned from
another module would) is included as a constant by the walker even
though its declared-module attribute does not equal the module name and
X is in no export list: the source treats a missing attribute as
defined-here, refuting the claimed inclusion condition. -/
theorem C5_counterexample :
    ((extract_module_info noModAttrModule "m").constants.map
        (fun c => c.name)) = ["X"]
    ∧ noModAttrObj.declaredModule ≠ some (PyModule.name noModAttrModule)
    ∧ "X" ∉ (PyModule.all noModAttrModule).getD [] := by
  refine ⟨?_, by simp [noModAttrObj, noModAttrModule], by simp [noModAttrModule]⟩
  unfold extract_module_info
  rw [show noModAttrModule.entries = [("X", some noModAttrObj)] from rfl]
  rw [List.filterMap_cons,
    show entry_passes noModAttrModule ("X", some noModAttrObj)
      = some ("X", noModAttrObj) from rfl]
  simp only [List.filterMap_nil]
  unfold consts_of
  simp only [List.filterMap_cons, List.filterMap_nil]
  rw [show noModAttrObj.payload = PyPayload.value false
      { reprStr := "3.14", isDictOrList := false, typeAnnot := Annot.floatTy }
    from rfl]
  simp

theorem funcs_of_append (l1 l2 : List (String × PyObj)) :
    funcs_of (l1 ++ l2) = funcs_of l1 ++ funcs_of l2 := by
  unfold funcs_of
  rw [List.filterMap_append]

theorem classes_of_append (l1 l2 : List (String × PyObj)) :
    classes_of (l1 ++ l2) = classes_of l1 ++ classes_of l2 := by
  unfold classes_of
  rw [List.filterMap_append]

theorem consts_of_append (l1 l2 : List (String × PyObj)) :
    consts_of (l1 ++ l2) = consts_of l1 ++ consts_of l2 := by
  unfold consts_of
  rw [List.filterMap_append]

/-- C5 (corrected): for a public (non-underscore) name bound to a
non-None object, the walker includes the objects contribution exactly
when the object lacks a declared-module attribute, or that attribute
equals the runtime module name, or the name appears in the export list;
the descriptor lists around that contribution are exactly those of the
neighbouring entries. A function or class imported from elsewhere
(whose declared-module attribute names another module) and absent from
the export list is excluded, but an attribute-less value is always
included. -/
theorem C5_inclusion_rule (m : PyModule) (mn : String)
    (pre post : List (String × Option PyObj)) (name : String) (obj : PyObj)
    (hsplit : m.entries = pre ++ (name, some obj) :: post)
    (hn : startsWithUnderscore name = false) :
    (extract_module_info m mn).functions =
        funcs_of (pre.filterMap (entry_passes m))
        ++ (if obj.declaredModule = Option.none ∨ obj.declaredModule = some m.name
              ∨ name ∈ m.all.getD []
            then funcs_of [(name, obj)] else [])
        ++ funcs_of (post.filterMap (entry_passes m))
    ∧ (extract_module_info m mn).classes =
        classes_of (pre.filterMap (entry_passes m))
        ++ (if obj.declaredModule = Option.none ∨ obj.declaredModule = some m.name
              ∨ name ∈ m.all.getD []
            then classes_of [(name, obj)] else [])
        ++ classes_of (post.filterMap (entry_passes m))
    ∧ (extract_module_info m mn).constants =
        consts_of (pre.filterMap (entry_passes m))
        ++ (if obj.declaredModule = Option.none ∨ obj.declaredModule = some m.name
              ∨ name ∈ m.all.getD []
            then consts_of [(name, obj)] else [])
        ++ consts_of (post.filterMap (entry_passes m)) := by
  have hep : entry_passes m (name, some obj) =
      if obj.declaredModule = Option.none ∨ obj.declaredModule = some m.name
          ∨ name ∈ m.all.getD []
      then some (name, obj) else Option.none := by
    show (if startsWithUnderscore name then Option.none
          else
            if ¬ (obj.declaredModule = Option.none ∨
                  obj.declaredModule = some m.name) ∧
               ¬ (name ∈ m.all.getD []) then Option.none
            else some (name, obj)) = _
    rw [hn]
    simp only [Bool.false_eq_true, if_false]
    by_cases hc : (obj.declaredModule = Option.none ∨
        obj.declaredModule = some m.name ∨ name ∈ m.all.getD [])
    · rw [if_neg (by tauto), if_pos hc]
    · rw [if_pos (by tauto), if_neg hc]
  have hincl : m.entries.filterMap (entry_passes m) =
      pre.filterMap (entry_passes m)
      ++ (if obj.declaredModule = Option.none ∨ obj.declaredModule = some m.name
            ∨ name ∈ m.all.getD []
          then [(name, obj)] else [])
      ++ post.filterMap (entry_passes m) := by
    rw [hsplit, List.filterMap_append, List.filterMap_cons, hep]
    by_cases hc : (obj.declaredModule = Option.none ∨
        obj.declaredModule = some m.name ∨ name ∈ m.all.getD [])
    · rw [if_pos hc, if_pos hc]
      simp
    · rw [if_neg hc, if_neg hc]
      simp
  refine ⟨?_, ?_, ?_⟩
  · show funcs_of (m.entries.filterMap (entry_passes m)) = _
    rw [hincl, funcs_of_append, funcs_of_append]
    by_cases hc : (obj.declaredModule = Option.none ∨
        obj.declaredModule = some m.name ∨ name ∈ m.all.getD [])
    · rw [if_pos hc, if_pos hc]
    · rw [if_neg hc, if_neg hc]
      rw [show funcs_of [] = [] from rfl]
  · show classes_of (m.entries.filterMap (entry_passes m)) = _
    rw [hincl, classes_of_append, classes_of_append]
    by_cases hc : (obj.declaredModule = Option.none ∨
        obj.declaredModule = some m.name ∨ name ∈ m.all.getD [])
    · rw [if_pos hc, if_pos hc]
    · rw [if_neg hc, if_neg hc]
      rw [show classes_of [] = [] from rfl]
  · show consts_of (m.entries.filterMap (entry_passes m)) = _
    rw [hincl, consts_of_append, consts_of_append]
    by_cases hc : (obj.declaredModule = Option.none ∨
        obj.declaredModule = some m.name ∨ name ∈ m.all.getD [])
    · rw [if_pos hc, if_pos hc]
    · rw [if_neg hc, if_neg hc]
      rw [show consts_of [] = [] from rfl]

/-- A function object imported from another module: its declared-module
attribute names that other module. -/
def importedFuncObj : PyObj :=
  { declaredModule := some "other",
    payload := PyPayload.func threeParamFunc }

def importingModule : PyModule :=
  { name := "m", file := Option.none, all := Option.none,
    entries := [("h", some importedFuncObj)], doc := Option.none }

theorem C5_witness :
    (extract_module_info importingModule "m").functions =
        funcs_of (List.filterMap (entry_passes importingModule) [])
        ++ (if PyObj.declaredModule importedFuncObj = Option.none ∨
              PyObj.declaredModule importedFuncObj =
                some (PyModule.name importingModule)
              ∨ "h" ∈ (PyModule.all importingModule).getD []
            then funcs_of [("h", importedFuncObj)] else [])
        ++ funcs_of (List.filterMap (entry_passes importingModule) [])
    ∧ (extract_module_info importingModule "m").classes =
        classes_of (List.filterMap (entry_passes importingModule) [])
        ++ (if PyObj.declaredModule importedFuncObj = Option.none ∨
              PyObj.declaredModule importedFuncObj =
                some (PyModule.name importingModule)
              ∨ "h" ∈ (PyModule.all importingModule).getD []
            then classes_of [("h", importedFuncObj)] else [])
        ++ classes_of (List.filterMap (entry_passes importingModule) [])
    ∧ (extract_module_info importingModule "m").constants =
        consts_of (List.filterMap (entry_passes importingModule) [])
        ++ (if PyObj.declaredModule importedFuncObj = Option.none ∨
              PyObj.declaredModule importedFuncObj =
                some (PyModule.name importingModule)
              ∨ "h" ∈ (PyModule.all importingModule).getD []
            then consts_of [("h", importedFuncObj)] else [])
        ++ consts_of (List.filterMap (entry_passes importingModule) []) :=
  C5_inclusion_rule importingModule "m" [] [] "h" importedFuncObj rfl rfl

/-! ## Claim C6 -/

/-- A list constant with a short textual repr. -/
def listConstVal : PyValue :=
  { reprStr := "[1, 2]", isDictOrList := true, typeAnnot := Annot.classTy "list" }

def listConstObj : PyObj :=
  { declaredModule := Option.none, payload := PyPayload.value false listConstVal }

def listConstModule : PyModule :=
  { name := "m", file := Option.none, all := Option.none,
    entries := [("L", some listConstObj)], doc := Option.none }

/-- C6 counterexample: a module-level list constant whose repr is 6
characters long keeps its textual value representation in the extracted
descriptor, although the claim says the representation is omitted for
every composite container: the source only omits it when the value is a
dict or list AND its repr reaches 100 characters. -/
theorem C6_counterexample :
    ((extract_module_info listConstModule "m").constants.map
        (fun c => (c.name, c.value))) = [("L", some "[1, 2]")]
    ∧ listConstVal.isDictOrList = true
    ∧ listConstVal.reprStr.length < 100 := by
  refine ⟨?_, rfl, by decide⟩
  unfold extract_module_info
  rw [show listConstModule.entries = [("L", some listConstObj)] from rfl]
  rw [List.filterMap_cons,
    show entry_passes listConstModule ("L", some listConstObj)
      = some ("L", listConstObj) from rfl]
  simp only [List.filterMap_nil]
  unfold consts_of
  simp only [List.filterMap_cons, List.filterMap_nil]
  rw [show listConstObj.payload = PyPayload.value false listConstVal from rfl]
  simp only []
  rw [if_pos (by right; decide)]
  simp [listConstVal]

theorem entry_passes_eq_some (m : PyModule) (e0 : String × Option PyObj)
    (e : String × PyObj) (h : entry_passes m e0 = some e) :
    e0 = (e.1, some e.2) := by
  rcases e0 with ⟨n0, b0⟩
  have h2 : (if startsWithUnderscore n0 then Option.none
      else
        match b0 with
        | Option.none => Option.none
        | some obj =>
          if ¬ (obj.declaredModule = Option.none ∨
                obj.declaredModule = some m.name) ∧
             ¬ (n0 ∈ m.all.getD []) then Option.none
          else some (n0, obj)) = some e := h
  by_cases hu : startsWithUnderscore n0 = true
  · rw [if_pos hu] at h2
    exact absurd h2 (by simp)
  · rw [if_neg hu] at h2
    cases b0 with
    | none => exact absurd h2 (by simp)
    | some obj =>
      have h3 : (if ¬ (obj.declaredModule = Option.none ∨
            obj.declaredModule = some m.name) ∧
            ¬ (n0 ∈ m.all.getD []) then Option.none
          else some (n0, obj)) = some e := h2
      by_cases hcnd : ¬ (obj.declaredModule = Option.none ∨
          obj.declaredModule = some m.name) ∧ ¬ (n0 ∈ m.all.getD [])
      · rw [if_pos hcnd] at h3
        exact absurd h3 (by simp)
      · rw [if_neg hcnd] at h3
        have := Option.some.inj h3
        rw [← this]

/-- C6 (corrected): every constant descriptor the walker emits comes
from a non-callable module binding, and its textual value field is the
repr of the value exactly when the value is not a dict or list instance
or its repr is shorter than 100 characters; only a composite container
with a repr of 100 characters or more has the representation withheld. -/
theorem C6_constant_value_rule (m : PyModule) (mn : String) (c : ConstantDesc)
    (hc : c ∈ (extract_module_info m mn).constants) :
    ∃ name obj v, (name, some obj) ∈ m.entries
      ∧ obj.payload = PyPayload.value false v
      ∧ c.name = name
      ∧ c.type = parse_type_annot v.typeAnnot
      ∧ c.value = (if ¬ v.isDictOrList ∨ v.reprStr.length < 100
                   then some v.reprStr else Option.none) := by
  have hc2 : c ∈ consts_of (m.entries.filterMap (entry_passes m)) := hc
  unfold consts_of at hc2
  obtain ⟨e, he, hge⟩ := List.mem_filterMap.mp hc2
  obtain ⟨e0, he0, hpass⟩ := List.mem_filterMap.mp he
  have he0eq := entry_passes_eq_some m e0 e hpass
  rcases e with ⟨nm, obj⟩
  refine ⟨nm, obj, ?_⟩
  have hge2 : (match obj.payload with
      | PyPayload.value false v =>
        some ({ name := nm, type := parse_type_annot v.typeAnnot,
                value := if ¬ v.isDictOrList ∨ v.reprStr.length < 100
                         then some v.reprStr else Option.none } : ConstantDesc)
      | _ => Option.none) = some c := hge
  cases hpay : obj.payload with
  | func f =>
    rw [hpay] at hge2
    exact absurd hge2 (by simp)
  | cls cl =>
    rw [hpay] at hge2
    exact absurd hge2 (by simp)
  | value b v =>
    cases b with
    | true =>
      rw [hpay] at hge2
      exact absurd hge2 (by simp)
    | false =>
      rw [hpay] at hge2
      simp only [Option.some.injEq] at hge2
      refine ⟨v, ?_, rfl, ?_, ?_, ?_⟩
      · rw [he0eq] at he0
        exact he0
      · rw [← hge2]
      · rw [← hge2]
      · rw [← hge2]

theorem C6_witness :
    ∃ name obj v, (name, some obj) ∈ PyModule.entries listConstModule
      ∧ PyObj.payload obj = PyPayload.value false v
      ∧ ConstantDesc.name
          { name := "L", type := parse_type_annot (Annot.classTy "list"),
            value := some "[1, 2]" } = name
      ∧ ConstantDesc.type
          { name := "L", type := parse_type_annot (Annot.classTy "list"),
            value := some "[1, 2]" } = parse_type_annot v.typeAnnot
      ∧ ConstantDesc.value
          { name := "L", type := parse_type_annot (Annot.classTy "list"),
            value := some "[1, 2]" }
        = (if ¬ v.isDictOrList ∨ v.reprStr.length < 100
           then some v.reprStr else Option.none) :=
  C6_constant_value_rule listConstModule "m"
    { name := "L", type := parse_type_annot (Annot.classTy "list"),
      value := some "[1, 2]" }
    (by
      show _ ∈ consts_of (List.filterMap (entry_passes listConstModule)
        (PyModule.entries listConstModule))
      rw [show listConstModule.entries = [("L", some listConstObj)] from rfl]
      rw [List.filterMap_cons,
        show entry_passes listConstModule ("L", some listConstObj)
          = some ("L", listConstObj) from rfl]
      simp only [List.filterMap_nil]
      unfold consts_of
      simp only [List.filterMap_cons, List.filterMap_nil]
      rw [show listConstObj.payload = PyPayload.value false listConstVal from rfl]
      simp only []
      rw [if_pos (by right; decide)]
      simp [listConstVal])

end UmoExtract
